import Mathlib

/-
Shallow embedding of the job-discovery and ranking pipeline of the
Automated-Job-Applications backend.

Conventions of the embedding:
* Python floats are modelled as rationals (ℚ) wherever the code only adds,
  multiplies, divides, compares, or clamps them; ℝ is used only where the
  code applies transcendental functions (math.log2, math.exp).
* External collaborators (the sentence-embedding model, the spaCy skill
  matcher, the LLM classifier/extractor, the Brave search provider, the
  geocoder, the HTTP fetcher, MongoDB ingestion) are oracles collected in
  the `Env` structure.  Each oracle that the Python code invokes inside a
  try/except (or whose library call can raise) returns `Except`/`Option`;
  the embedded repository functions reproduce exactly where the code
  catches and where it lets exceptions propagate.
* Python exceptions that escape a function are modelled with `Except PyErr`
  (for the ranking loop, whose heap comparisons can raise TypeError) or
  `Except Unit` (for pipeline-level failures).
-/

/-! ## Data model -/

/-- Job record, after `models/job.py` (`class Job`).  The pydantic model has
fields `_id`, `title`, `company`, `location`, `description`,
`application_url`, `date_posted`, `description_embedding`, `title_embedding`,
`source_url`, `user_id`.  It defines **no** `score` field and no ordering
(`__lt__`); `services/rank_and_filter_jobs.py` attaches a score dynamically
via `model_copy(update={'score': ...})`, which we model as an `Option ℚ`
field that is `none` until somebody writes it.  Embedding vectors are lists
of floats, modelled as `List ℚ`; `none` models Python `None` and `some []`
an empty list (both are falsy in the code's `if not ...` checks). -/
structure Job where
  id : String := ""
  title : String
  company : String := ""
  location : Option String := none
  description : String
  application_url : Option String := none
  date_posted : Option String := none
  description_embedding : Option (List ℚ) := none
  title_embedding : Option (List ℚ) := none
  source_url : String := ""
  user_id : Option String := none
  score : Option ℚ := none
  deriving DecidableEq, Repr, Inhabited

/-- Result of `parse_resume` / `parse_job_description`
(`services/pdf_processing/parse_resume.py`): the spaCy-extracted skill set
(duplicates removed by `list(set(...))`, hence a `Finset`) and the detected
experience-level string. -/
structure ParsedDoc where
  skills : Finset String
  experience_level : String
  deriving DecidableEq, Inhabited

/-- Page classification labels (`models/agent_models/page_classification.py`),
as compared against string literals in `services/job_search.py`. -/
inductive PageClassification
  | JOB_DESCRIPTION
  | JOB_BOARD
  | IRRELEVANT
  deriving DecidableEq, Repr, Inhabited

/-- Python exceptions that can escape the ranking function:
`TypeError` from comparing `Job` objects inside the heap, and `IndexError`
from popping an empty heap (never reached by the code paths proved here). -/
inductive PyErr
  | typeError
  | indexError
  deriving DecidableEq, Repr, Inhabited

/-- Outcome of decoding and iterating a search payload (web_search.py lines
21-24).  `json.loads` either raises `json.JSONDecodeError` (`decodeError`) or
returns a Python value; iterating a decoded value that is not iterable —
`None`, a number, a boolean, e.g. payloads `"null"` or `"42"` — raises a
`TypeError` at `for result in results_list` (`notIterable`); an iterable
value yields its elements (`items`), each carrying its `'link'` value exactly
when the element is a dict with that key, and `none` otherwise. -/
inductive DecodeResult where
  | decodeError
  | notIterable
  | items : List (Option String) → DecodeResult
  deriving DecidableEq, Repr, Inhabited

/-- Oracles for every external collaborator the pipeline calls.
All oracle outputs are deterministic functions of their text inputs, which
matches the spec's determinism assumption for one run. -/
structure Env where
  /-- `model.encode(text).tolist()` of the sentence-embedding model. -/
  encode : String → List ℚ
  /-- `sklearn cosine_similarity` of two non-empty embedding vectors. -/
  cosine : List ℚ → List ℚ → ℚ
  /-- spaCy parse of the resume (`parse_resume`, skills + experience level). -/
  parse_resume_doc : String → ParsedDoc
  /-- embedding returned by `parse_resume` itself (its own `model.encode`). -/
  resume_parse_embedding : String → List ℚ
  /-- spaCy parse of a job description (`parse_job_description`). -/
  parse_job_doc : String → ParsedDoc
  /-- `geolocator.geocode`; `none` covers both "not found" and a raised
  exception, which `get_location_coordinates` catches and maps to `None`. -/
  geocode : String → Option (ℚ × ℚ)
  /-- `geopy geodesic(...).kilometers` (a float, hence ℚ). -/
  geodesicKm : ℚ × ℚ → ℚ × ℚ → ℚ
  /-- LLM query crafting (`craft_query_node`); an exception propagates. -/
  craft_queries : String → String → Except Unit (List String)
  /-- `search_tool.ainvoke(query)` raw string result; `.error` is a raised
  network/provider exception. -/
  search : String → Except Unit String
  /-- `json.loads` of the search payload followed by the `for result in
  results_list` iteration: a `JSONDecodeError`, a `TypeError` on a decoded
  non-iterable value, or the iterated elements' `'link'` values. -/
  decodeSearch : String → DecodeResult
  /-- per-URL fetch sub-step (`fetch_page_text_node` call inside
  `process_url`); `.error` is any raised exception. -/
  fetch_step : String → Except Unit String
  /-- per-page classify sub-step (`classify_page_node` call);
  `.error` is any raised exception. -/
  classify_step : String → Except Unit PageClassification
  /-- LLM structured extraction (`extraction_chain.ainvoke`); `.ok none`
  models a `None` extraction result. -/
  extract_step : String → Except Unit (Option Job)
  /-- `ingest_job_and_embed` into MongoDB; `.error` is a raised exception. -/
  ingest : Job → Except Unit Unit

/-! ## Ranking primitives (`services/ranking/ranker.py`) -/

/-- `calculate_similarity` (ranker.py lines 33-51): cosine similarity with
the guard `if not embedding1 or not embedding2: return 0.0`. -/
def calculate_similarity (env : Env) (embedding1 embedding2 : List ℚ) : ℚ :=
  if embedding1 = [] ∨ embedding2 = [] then 0 else env.cosine embedding1 embedding2

/-- `EXPERIENCE_LEVELS` dict (ranker.py lines 22-29) combined with the
`.get(key, -1)` lookups at lines 223-224: unknown strings default to -1,
the same value as the "not specified" sentinel. -/
def EXPERIENCE_LEVELS (level : String) : Int :=
  if level = "internship" then 0
  else if level = "entry_level" then 1
  else if level = "mid-level" then 2
  else if level = "senior" then 3
  else if level = "lead" then 4
  else if level = "not specified" then -1
  else -1

/-- `MAX_EXPERIENCE_DIFF` (ranker.py line 31). -/
def MAX_EXPERIENCE_DIFF : Int := 4

/-- Experience-match signal (ranker.py lines 227-234): 1.0 when both levels
are the -1 sentinel, 0.5 when exactly one is, otherwise the logarithmic
decay `1 - log2(1 + diff) / log2(1 + MAX_EXPERIENCE_DIFF)`. -/
noncomputable def experience_match_score (resume_experience_level job_experience_level : Int) : ℝ :=
  if resume_experience_level = -1 ∧ job_experience_level = -1 then 1
  else if resume_experience_level = -1 ∨ job_experience_level = -1 then 0.5
  else
    let experience_diff : Int := |resume_experience_level - job_experience_level|
    1 - Real.logb 2 (1 + (experience_diff : ℝ)) / Real.logb 2 (1 + (MAX_EXPERIENCE_DIFF : ℝ))

/-- Skill-overlap formula of ranker.py lines 218-221 (identically
`services/rank_and_filter_jobs.py` lines 324-327):
`len(resume ∩ job) / max(len(resume), len(job), 1)`.
Note the denominator is the larger set's size, not the union's. -/
def skill_overlap (resume_skills_set job_skills_set : Finset String) : ℚ :=
  ((resume_skills_set ∩ job_skills_set).card : ℚ) /
    ((max (max resume_skills_set.card job_skills_set.card) 1 : ℕ) : ℚ)

/-- Jaccard similarity as the spec's words define the `skillOverlap` signal:
`(resume ∩ job) / (resume ∪ job)` with the denominator floored at 1.
Spec-side definition, stated for comparison with `skill_overlap`. -/
def jaccard_similarity (resume_skills_set job_skills_set : Finset String) : ℚ :=
  ((resume_skills_set ∩ job_skills_set).card : ℚ) /
    ((max (resume_skills_set ∪ job_skills_set).card 1 : ℕ) : ℚ)

/-- Filter parameters (ranker.py lines 78-101).  Only the keys the embedded
code paths read are kept; the salary/job-type/location keys are dead because
`models/job.py` defines no `salary` attribute (`hasattr(job, 'salary')` is
always false) and the remaining keys are never read by `rank_and_filter_jobs`.
The `weights` sub-dict is flattened into `w_*` fields. -/
structure FilterParams where
  prompt_boost_threshold : ℚ := 1/2
  prompt_boost_factor : ℚ := 6/5
  role_relevance_threshold : ℚ := 3/10
  role_relevance_boost_factor : ℚ := 1/2
  min_overall_score : ℚ := 0
  w_resume_match : ℚ := 2/5
  w_prompt_match : ℚ := 3/10
  w_skill_overlap : ℚ := 1/5
  w_experience_match : ℚ := 1/10
  w_job_description_match : ℚ := 2/5
  w_proximity_score : ℚ := 3/10
  deriving DecidableEq, Repr, Inhabited

/-- `get_location_coordinates` (`services/ranking/location.py` lines 12-40):
empty location names short-circuit to `None`; geocoder failures are caught
inside the function and also yield `None` (folded into the oracle).  The
process-wide cache is a pure optimisation and is not modelled. -/
def get_location_coordinates (env : Env) (location_name : String) : Option (ℚ × ℚ) :=
  if location_name = "" then none else env.geocode location_name

/-- `compute_proximity_score` (`services/ranking/location.py` lines 42-57):
exponential decay `exp(-0.2 * distanceKm)` clamped to [0, 1].  The
coordinate tuples are always truthy here, so the 0.3 guard of the first
line lives at the call site. -/
noncomputable def compute_proximity_score (env : Env) (user_coordinates job_coordinates : ℚ × ℚ) : ℝ :=
  let distance := env.geodesicKm user_coordinates job_coordinates
  max 0 (min (Real.exp (-(1/5 : ℝ) * (distance : ℝ))) 1)

/-- Role-relevance factor (ranker.py lines 253-269; identically
`services/rank_and_filter_jobs.py` lines 345-357): starting from 1.0, the
factor is decremented by `(1.0 - similarity) * role_relevance_boost_factor`
and clamped at 0 once for the title-to-prompt similarity (only when a prompt
embedding and a title embedding exist and the similarity is below the
threshold) and once more for the title-to-resume similarity (only when a
title embedding exists and that similarity is below the threshold). -/
def role_relevance (env : Env) (filter_params : FilterParams)
    (prompt_embedding : Option (List ℚ)) (resume_embedding : List ℚ)
    (title_embedding : Option (List ℚ)) : ℚ :=
  let r1 : ℚ :=
    match prompt_embedding, title_embedding with
    | some pe, some te =>
      let title_prompt_similarity := calculate_similarity env pe te
      if title_prompt_similarity < filter_params.role_relevance_threshold then
        max (1 - (1 - title_prompt_similarity) * filter_params.role_relevance_boost_factor) 0
      else 1
    | _, _ => 1
  match title_embedding with
  | some te =>
    let title_resume_similarity := calculate_similarity env resume_embedding te
    if title_resume_similarity < filter_params.role_relevance_threshold then
      max (r1 - (1 - title_resume_similarity) * filter_params.role_relevance_boost_factor) 0
    else r1
  | none => r1

/-- Shrink factor the spec's words prescribe for the role-relevance penalty:
`(1 - (threshold - similarity) * boostFactor)`, floored at 0.
Spec-side definition, stated for comparison with `role_relevance`. -/
def role_relevance_spec_factor (threshold boost_factor similarity : ℚ) : ℚ :=
  max (1 - (threshold - similarity) * boost_factor) 0

/-- Weighted base score (ranker.py lines 213-251 and 272-280): prompt boost,
max-card skill overlap, log-decay experience match, job-description match
(= resume similarity), proximity score (0.3 unless the job has a location
and both ends geocode; `parsed_resume` has no `location` key, so the user
side is always `get_location_coordinates('')` = `None`), combined with the
`weights` dict of `filter_params`. -/
noncomputable def base_score (env : Env) (filter_params : FilterParams)
    (parsed_resume parsed_job : ParsedDoc) (prompt_embedding : Option (List ℚ))
    (job : Job) (resume_similarity prompt_similarity : ℚ) : ℝ :=
  let prompt_similarity : ℚ :=
    match prompt_embedding with
    | some _ =>
      if filter_params.prompt_boost_threshold < prompt_similarity then
        min (prompt_similarity * filter_params.prompt_boost_factor) 1
      else prompt_similarity
    | none => prompt_similarity
  let so := skill_overlap parsed_resume.skills parsed_job.skills
  let resume_experience_level := EXPERIENCE_LEVELS parsed_resume.experience_level
  let job_experience_level := EXPERIENCE_LEVELS parsed_job.experience_level
  let experience_match := experience_match_score resume_experience_level job_experience_level
  let job_description_match := resume_similarity
  let proximity_score : ℝ :=
    match job.location with
    | none => 0.3
    | some loc =>
      if loc = "" then 0.3
      else
        match get_location_coordinates env "", get_location_coordinates env loc with
        | some user_coordinates, some job_coordinates =>
          compute_proximity_score env user_coordinates job_coordinates
        | _, _ => 0.3
  (filter_params.w_resume_match : ℝ) * (resume_similarity : ℝ) +
    (filter_params.w_prompt_match : ℝ) * (prompt_similarity : ℝ) +
    (filter_params.w_skill_overlap : ℝ) * (so : ℝ) +
    (filter_params.w_experience_match : ℝ) * experience_match +
    (filter_params.w_job_description_match : ℝ) * (job_description_match : ℝ) +
    (filter_params.w_proximity_score : ℝ) * proximity_score

/-- Final per-job score of the post-heap block of `rank_and_filter_jobs`
(ranker.py lines 213-284): `score = base_score * role_relevance`.  In the
source this value only feeds the `if score < min_overall_score: continue`
check at lines 287-288, which is the last statement of the loop body and
therefore can no longer remove the job from `top_k_heap` (the heap was
already updated at lines 203-211). -/
noncomputable def post_heap_score (env : Env) (filter_params : FilterParams)
    (parsed_resume : ParsedDoc) (resume_embedding : List ℚ)
    (prompt_embedding : Option (List ℚ)) (job : Job) (parsed_job : ParsedDoc)
    (resume_similarity prompt_similarity : ℚ) : ℝ :=
  base_score env filter_params parsed_resume parsed_job prompt_embedding job
      resume_similarity prompt_similarity *
    (role_relevance env filter_params prompt_embedding resume_embedding job.title_embedding : ℝ)

/-! ## The top-K heap (ranker.py lines 16-18, 131-133, 203-211, 295-305)

`rank_and_filter_jobs` stores `(overall_score, job_score)` tuples in a
Python `heapq` min-heap.  Python compares such tuples lexicographically;
on a score tie the comparison falls through to the `JobScore` named tuples
(field order `job, score, resume_similarity, prompt_similarity,
skill_overlap, experience_match`), whose first component is a pydantic
`Job` with `__eq__` (field equality) but no `__lt__`: comparing two
distinct jobs raises `TypeError`.  Comparisons are therefore modelled in
`Except PyErr`, and the heap routines are the textual CPython `heapq`
algorithms (`heappush`/`heappop` with `_siftdown`/`_siftup`). -/

/-- `JobScore` named tuple (ranker.py lines 17-18). -/
structure JobScore where
  job : Job
  score : ℚ
  resume_similarity : ℚ
  prompt_similarity : ℚ
  skill_overlap : ℚ
  experience_match : ℚ
  deriving DecidableEq, Repr, Inhabited

/-- Heap entries: `(overall_score, job_score)` tuples (ranker.py line 206). -/
abbrev HeapEntry := ℚ × JobScore

/-- Python lexicographic `<` on equal-length tuples of floats: find the
first position where the components differ and compare there; if none
differ the tuples are equal and `<` is false. -/
def ratLexLt : List (ℚ × ℚ) → Bool
  | [] => false
  | (a, b) :: rest => if a = b then ratLexLt rest else decide (a < b)

/-- Python `<` on two `JobScore` named tuples: tuple comparison first
tests `==` on the leading `job` components (pydantic field equality); when
the jobs differ it evaluates `job1 < job2`, which raises `TypeError`
because `Job` defines no ordering; when the jobs are equal the comparison
moves on through the five float fields. -/
def jobScoreLt (x y : JobScore) : Except PyErr Bool :=
  if x.job = y.job then
    .ok (ratLexLt [(x.score, y.score), (x.resume_similarity, y.resume_similarity),
      (x.prompt_similarity, y.prompt_similarity), (x.skill_overlap, y.skill_overlap),
      (x.experience_match, y.experience_match)])
  else .error .typeError

/-- Python `<` on two `(score, job_score)` heap entries. -/
def heapEntryLt (x y : HeapEntry) : Except PyErr Bool :=
  if x.1 = y.1 then jobScoreLt x.2 y.2 else .ok (decide (x.1 < y.1))

/-- CPython `heapq._siftdown(heap, startpos, pos)` with
`newitem = heap[pos]` passed explicitly: bubble `newitem` up towards
`startpos` while it compares strictly less than its parent.  The `while
pos > startpos` loop lowers `pos` to `(pos - 1) // 2 ≤ pos - 1` each
round, so `pos` rounds always suffice; `siftdown` passes exactly that
fuel, and when the fuel hits 0 the loop guard must already be false
(`pos = 0 ≤ startpos`), where the loop exits with `heap[pos] = newitem` —
the fuel-0 branch performs precisely that exit action. -/
def siftdown_aux : Nat → List HeapEntry → Nat → Nat → HeapEntry →
    Except PyErr (List HeapEntry)
  | 0, heap, _startpos, pos, newitem => .ok (heap.set pos newitem)
  | fuel + 1, heap, startpos, pos, newitem =>
    if startpos < pos then
      let parentpos := (pos - 1) / 2
      let parent := heap.getD parentpos default
      match heapEntryLt newitem parent with
      | .error e => .error e
      | .ok true => siftdown_aux fuel (heap.set pos parent) startpos parentpos newitem
      | .ok false => .ok (heap.set pos newitem)
    else .ok (heap.set pos newitem)

/-- CPython `heapq._siftdown(heap, startpos, pos)`. -/
def siftdown (heap : List HeapEntry) (startpos pos : Nat) (newitem : HeapEntry) :
    Except PyErr (List HeapEntry) :=
  siftdown_aux pos heap startpos pos newitem

/-- CPython `heapq._siftup(heap, pos)` with `newitem = heap[pos]` and
`startpos = pos` passed explicitly: walk the smaller child up into the
hole, then restore `newitem` with a final `_siftdown`.  The `while
childpos < endpos` loop raises `pos` to at least `pos + 1` each round
while `pos < endpos` stays true, so `endpos = len(heap)` rounds always
suffice; `siftup` passes exactly that fuel, and when the fuel hits 0 the
guard must already be false (`endpos ≤ pos < childpos`), where the loop
exits into the final `heap[pos] = newitem; _siftdown(...)` — the fuel-0
branch performs precisely that exit action. -/
def pick_child (heap : List HeapEntry) (childpos rightpos : Nat) : Except PyErr Nat :=
  if rightpos < heap.length then
    match heapEntryLt (heap.getD childpos default) (heap.getD rightpos default) with
    | .error e => .error e
    | .ok b => .ok (if b then childpos else rightpos)
  else .ok childpos

def siftup_aux : Nat → List HeapEntry → Nat → HeapEntry → Nat →
    Except PyErr (List HeapEntry)
  | 0, heap, pos, newitem, startpos => siftdown (heap.set pos newitem) startpos pos newitem
  | fuel + 1, heap, pos, newitem, startpos =>
    let childpos := 2 * pos + 1
    if childpos < heap.length then
      let rightpos := childpos + 1
      match pick_child heap childpos rightpos with
      | .error e => .error e
      | .ok childpos2 =>
        siftup_aux fuel (heap.set pos (heap.getD childpos2 default)) childpos2 newitem startpos
    else siftdown (heap.set pos newitem) startpos pos newitem

/-- CPython `heapq._siftup(heap, pos)`. -/
def siftup (heap : List HeapEntry) (pos : Nat) (newitem : HeapEntry) (startpos : Nat) :
    Except PyErr (List HeapEntry) :=
  siftup_aux heap.length heap pos newitem startpos

/-- CPython `heapq.heappush`: append, then sift the new item down from the
last position. -/
def heappush (heap : List HeapEntry) (item : HeapEntry) : Except PyErr (List HeapEntry) :=
  siftdown (heap ++ [item]) 0 heap.length item

/-- CPython `heapq.heappop`: pop the last element; if the heap is still
non-empty, move the last element to the root and sift it up.  Popping an
empty heap raises `IndexError` (never reached by the embedded callers,
which always test emptiness first). -/
def heappop (heap : List HeapEntry) : Except PyErr (HeapEntry × List HeapEntry) :=
  match heap.getLast? with
  | none => .error .indexError
  | some lastelt =>
    let rest := heap.dropLast
    if rest = [] then .ok (lastelt, rest)
    else
      let returnitem := rest.getD 0 default
      match siftup (rest.set 0 lastelt) 0 lastelt 0 with
      | .error e => .error e
      | .ok heap2 => .ok (returnitem, heap2)

/-- Drain loop of ranker.py lines 296-299: `while top_k_heap: pop and
append (job_score, score)`.  Each successful `heappop` shrinks the heap by
one, so `heap.length` rounds of popping always exhaust it; the fuel is set
to exactly that bound by `heap_to_list` below, making the fuel-exhausted
branch unreachable (`heap_to_list_aux_fuel_irrelevant` below). -/
def heap_to_list_aux (fuel : Nat) (heap : List HeapEntry) :
    Except PyErr (List (JobScore × ℚ)) :=
  match fuel with
  | 0 => if heap = [] then .ok [] else .error .indexError
  | fuel + 1 =>
    if heap = [] then .ok []
    else
      match heappop heap with
      | .error e => .error e
      | .ok (entry, rest) =>
        match heap_to_list_aux fuel rest with
        | .error e => .error e
        | .ok tail => .ok ((entry.2, entry.1) :: tail)

/-- Pop the whole heap into a list of `(job_score, score)` pairs in pop
order (ranker.py lines 296-299). -/
def heap_to_list (heap : List HeapEntry) : Except PyErr (List (JobScore × ℚ)) :=
  heap_to_list_aux heap.length heap

/-! ## The ranking loop (`rank_and_filter_jobs`, ranker.py lines 54-305) -/

/-- Per-job signal extraction (ranker.py lines 140-155): parse the
description, lazily fill the description embedding (when it is `None` or
empty, both falsy), compute the resume similarity, and — only when a
prompt embedding exists — lazily fill the title embedding and compute the
prompt similarity (otherwise 0.0).  Returns the possibly-updated job, the
parsed description, and the two similarities. -/
def job_signals (env : Env) (prompt_embedding : Option (List ℚ))
    (resume_embedding : List ℚ) (job : Job) : Job × ParsedDoc × ℚ × ℚ :=
  let parsed_job := env.parse_job_doc job.description
  let job := if job.description_embedding.getD [] = [] then
      { job with description_embedding := some (env.encode job.description) } else job
  let resume_similarity :=
    calculate_similarity env resume_embedding (job.description_embedding.getD [])
  match prompt_embedding with
  | none => (job, parsed_job, resume_similarity, 0)
  | some pe =>
    let job := if job.title_embedding.getD [] = [] then
        { job with title_embedding := some (env.encode job.title) } else job
    (job, parsed_job, resume_similarity,
      calculate_similarity env pe (job.title_embedding.getD []))

/-- First-pass skill overlap (ranker.py lines 157-160):
`len(resume ∩ job) / max(len(job), 1)` — note this is the heap-relevant
variant, divided by the job's skill count only. -/
def skill_overlap_live (parsed_resume parsed_job : ParsedDoc) : ℚ :=
  ((parsed_resume.skills ∩ parsed_job.skills).card : ℚ) /
    ((max parsed_job.skills.card 1 : ℕ) : ℚ)

/-- First-pass experience match (ranker.py lines 162-165): 1.0 on equal
experience-level strings, else 0.0. -/
def exp_match_live (parsed_resume parsed_job : ParsedDoc) : ℚ :=
  if parsed_resume.experience_level = parsed_job.experience_level then 1 else 0

/-- `overall_score` (ranker.py lines 167-180): weighted sum with the
hardcoded local `weights` dict {0.5, 0.2, 0.2, 0.1}. -/
def overall_score (parsed_resume parsed_job : ParsedDoc)
    (resume_similarity prompt_similarity : ℚ) : ℚ :=
  resume_similarity * (1/2) + prompt_similarity * (1/5) +
    skill_overlap_live parsed_resume parsed_job * (1/5) +
    exp_match_live parsed_resume parsed_job * (1/10)

/-- Loop body of `rank_and_filter_jobs` for one job (ranker.py lines
135-211): skip empty descriptions, compute the signals and `overall_score`,
skip jobs under `role_relevance_threshold` (line 183 reads that key, not
`min_overall_score`), then update the bounded heap with `k = 100` —
push while under capacity, else replace the minimum only when strictly
beaten.  The salary filter (lines 196-201) is statically dead because
`models/job.py` defines no `salary` field.  The post-heap block (lines
213-293, modelled by `post_heap_score`) ends every control path with the
loop body, so it leaves the heap untouched and is not part of the state
update. -/
def process_job (env : Env) (filter_params : FilterParams) (parsed_resume : ParsedDoc)
    (resume_embedding : List ℚ) (prompt_embedding : Option (List ℚ))
    (top_k_heap : List HeapEntry) (job : Job) : Except PyErr (List HeapEntry) :=
  if job.description = "" then .ok top_k_heap
  else
    let sig := job_signals env prompt_embedding resume_embedding job
    let job := sig.1
    let parsed_job := sig.2.1
    let resume_similarity := sig.2.2.1
    let prompt_similarity := sig.2.2.2
    let score := overall_score parsed_resume parsed_job resume_similarity prompt_similarity
    if score < filter_params.role_relevance_threshold then .ok top_k_heap
    else
      let job_score : JobScore :=
        { job := job, score := score, resume_similarity := resume_similarity,
          prompt_similarity := prompt_similarity,
          skill_overlap := skill_overlap_live parsed_resume parsed_job,
          experience_match := exp_match_live parsed_resume parsed_job }
      if top_k_heap.length < 100 then heappush top_k_heap (score, job_score)
      else
        if (top_k_heap.getD 0 default).1 < score then
          match heappop top_k_heap with
          | .error e => .error e
          | .ok (_, rest) => heappush rest (score, job_score)
        else .ok top_k_heap

/-- One step of the final stable descending sort
(`sorted_job_scores.sort(key=lambda x: x[1], reverse=True)`, ranker.py
line 302): insert a pair into an already descending list, before the
first strictly smaller score — later equal-scored pairs stay behind it,
matching Python's stable sort. -/
def insert_desc (p : JobScore × ℚ) : List (JobScore × ℚ) → List (JobScore × ℚ)
  | [] => [p]
  | q :: rest => if p.2 < q.2 then q :: insert_desc p rest else p :: q :: rest

/-- Stable descending sort by score, modelling Python's stable
`list.sort(key=lambda x: x[1], reverse=True)`. -/
def sort_by_score_desc : List (JobScore × ℚ) → List (JobScore × ℚ)
  | [] => []
  | p :: rest => insert_desc p (sort_by_score_desc rest)

/-- Loop, drain, and final sort of `rank_and_filter_jobs` (ranker.py lines
131-302): the per-job loop folded over the heap, the drain loop, and the
final stable descending sort by score
(`sorted_job_scores.sort(key=lambda x: x[1], reverse=True)`). -/
def rank_loop (env : Env) (filter_params : FilterParams) (parsed_resume : ParsedDoc)
    (resume_embedding : List ℚ) (prompt_embedding : Option (List ℚ)) (jobs : List Job) :
    Except PyErr (List (JobScore × ℚ)) :=
  match jobs.foldlM
      (process_job env filter_params parsed_resume resume_embedding prompt_embedding) [] with
  | .error e => .error e
  | .ok heap =>
    match heap_to_list heap with
    | .error e => .error e
    | .ok sorted_job_scores =>
      .ok (sort_by_score_desc sorted_job_scores)

/-- Input preparation and dispatch of `rank_and_filter_jobs` (ranker.py
lines 74-129): early return on an empty job list, resume parse and lazy
resume embedding, prompt embedding only for a non-empty prompt, then the
loop/drain/sort of `rank_loop`. -/
def rank_and_filter_jobs_scored (env : Env) (jobs : List Job)
    (resume_text search_prompt : String) (filter_params : FilterParams) :
    Except PyErr (List (JobScore × ℚ)) :=
  if jobs = [] then .ok []
  else
    rank_loop env filter_params (env.parse_resume_doc resume_text)
      (if env.resume_parse_embedding resume_text = [] then env.encode resume_text
       else env.resume_parse_embedding resume_text)
      (if search_prompt = "" then none else some (env.encode search_prompt)) jobs

/-- `rank_and_filter_jobs` (ranker.py lines 54-305): the returned value is
`[job_score.job for job_score, _ in sorted_job_scores]`. -/
def rank_and_filter_jobs (env : Env) (jobs : List Job)
    (resume_text search_prompt : String) (filter_params : FilterParams) :
    Except PyErr (List Job) :=
  (rank_and_filter_jobs_scored env jobs resume_text search_prompt filter_params).map
    (List.map (fun p => p.1.job))

/-! ## Concurrent page processor (`services/job_search.py` lines 23-84) -/

/-- `process_url` (job_search.py lines 33-57): one URL's fetch and classify
sub-steps run inside a single `try/except Exception` whose handler returns
`(None, "IRRELEVANT")`; an empty fetched page text also short-circuits to
`(None, "IRRELEVANT")`.  The per-URL browser context isolates the fetch and
is pure resource management, so it is not modelled. -/
def process_url (env : Env) (url : String) : Option String × PageClassification :=
  match env.fetch_step url with
  | .error _ => (none, .IRRELEVANT)
  | .ok page_text =>
    if page_text = "" then (none, .IRRELEVANT)
    else
      match env.classify_step page_text with
      | .error _ => (none, .IRRELEVANT)
      | .ok classification => (some page_text, classification)

/-- `extract_job_details_node`
(`services/agent_nodes/page_processing.py` lines 66-116): skip empty page
text; the whole LLM extraction, the `model_dump` of a possibly-`None`
result, and the MongoDB ingestion run inside try/except blocks that both
resolve to "no job" (`{}`); a successful extraction gets `source_url`
overwritten with the fetched URL. -/
def extract_job_details (env : Env) (page_text url : String) : Option Job :=
  if page_text = "" then none
  else
    match env.extract_step page_text with
    | .error _ => none
    | .ok none => none
    | .ok (some extracted_data) =>
      let extracted_data := { extracted_data with source_url := url }
      match env.ingest extracted_data with
      | .error _ => none
      | .ok _ => some extracted_data

/-- `process_urls_in_parallel` (job_search.py lines 23-84): gather the
per-URL `(page_text, classification)` results (asyncio.gather preserves
input order), keep the pages classified `JOB_DESCRIPTION` with non-empty
text, extract each of those, and drop falsy extraction results
(`[job for job in extracted_jobs if job]`).  `JOB_BOARD` pages are
collected only to be logged and are not expanded.  The semaphore bounds
in-flight concurrency and does not affect the value produced. -/
def process_urls_in_parallel (env : Env) (urls_to_process : List String) : List Job :=
  let results := urls_to_process.map (process_url env)
  let job_description_pages :=
    (urls_to_process.zip results).filterMap (fun p =>
      match p.2.1, p.2.2 with
      | some page_text, .JOB_DESCRIPTION => some (p.1, page_text)
      | _, _ => none)
  (job_description_pages.map (fun p => extract_job_details env p.2 p.1)).filterMap id

/-- Contribution of a single URL to the batch result: a job exactly when
its fetch produced non-empty text, classification said `JOB_DESCRIPTION`,
and extraction succeeded. -/
def url_job (env : Env) (url : String) : Option Job :=
  match process_url env url with
  | (some page_text, .JOB_DESCRIPTION) => extract_job_details env page_text url
  | _ => none

/-- A URL on which some sub-step (fetch, classify, or — when reached —
extract) raises an exception. -/
def url_step_fails (env : Env) (url : String) : Prop :=
  (∃ e, env.fetch_step url = .error e) ∨
  (∃ page_text, env.fetch_step url = .ok page_text ∧
    ∃ e, env.classify_step page_text = .error e) ∨
  (∃ page_text, env.fetch_step url = .ok page_text ∧
    env.classify_step page_text = .ok .JOB_DESCRIPTION ∧
    ∃ e, env.extract_step page_text = .error e)

/-! ## Discovery (`services/agent_nodes/web_search.py` lines 6-33) -/

/-- Insertion into the `all_urls` set (`all_urls.add(result['link'])`):
modelled as an insertion-ordered duplicate-free list. -/
def add_url (all_urls : List String) (link : String) : List String :=
  if link ∈ all_urls then all_urls else all_urls ++ [link]

/-- One query of `find_urls_node` (web_search.py lines 18-27):
call the search provider — an exception raised by `search_tool.ainvoke`
is **not** caught and propagates out of the node — then `json.loads` the
payload and iterate the result inside a `try` whose only handler is
`except json.JSONDecodeError`: a decode failure skips the query, but a
`TypeError` raised by `for result in results_list` on a decodable
non-iterable payload is not caught and propagates; otherwise add every
result dict's `'link'` to the URL set.  The 1-second rate-limit sleep has
no effect on the value. -/
def find_urls_step (env : Env) (all_urls : List String) (query : String) :
    Except Unit (List String) :=
  match env.search query with
  | .error e => .error e
  | .ok results_str =>
    match env.decodeSearch results_str with
    | .decodeError => .ok all_urls
    | .notIterable => .error ()
    | .items results_list => .ok (results_list.foldl (fun acc link? =>
        match link? with
        | some link => add_url acc link
        | none => acc) all_urls)

/-- `find_urls_node` (web_search.py lines 6-33): the per-query step folded
over the query list, starting from the empty URL set. -/
def find_urls_node (env : Env) (search_queries : List String) :
    Except Unit (List String) :=
  search_queries.foldlM (find_urls_step env) []

/-! ## Orchestrator (`services/job_search.py` lines 86-126,
`services/agent_nodes/process_match.py`) -/

/-- `should_process_urls_router` (job_search.py lines 18-21):
`process_urls` when `urls_to_process` is truthy (non-empty). -/
def should_process_urls_router (urls_to_process : List String) : Bool :=
  !urls_to_process.isEmpty

/-- `process_and_match_node` (`services/agent_nodes/process_match.py`):
empty extracted-job list, empty resume text, or empty search prompt each
short-circuit to `final_jobs = []` — no exception is raised for a missing
input.  `rank_and_filter_jobs` (the `services/ranking/ranker.py` version,
re-exported by `services/ranking/__init__.py`) is called with default
filter parameters inside a `try/except` whose handler falls back to the
unranked input list. -/
def process_and_match_node (env : Env) (extracted_jobs : List Job)
    (resume_text search_prompt : String) : List Job :=
  if extracted_jobs = [] then []
  else if resume_text = "" then []
  else if search_prompt = "" then []
  else
    match rank_and_filter_jobs env extracted_jobs resume_text search_prompt {} with
    | .ok ranked_and_filtered_jobs => ranked_and_filtered_jobs
    | .error _ => extracted_jobs

/-- `JobSearchService.search_and_process_jobs` (job_search.py lines
86-126) over the compiled stage graph: craft_query → find_urls →
(router) → process_urls_in_parallel → process_and_match → END.  The
initial state carries only `resume_text`, `search_prompt`, the browser,
and an empty `extracted_jobs`; no precondition on the inputs is checked
before the stages run.  Exceptions raised inside craft_query or find_urls
propagate to the caller; the other two nodes are total. -/
def search_and_process_jobs (env : Env) (resume_text search_prompt : String) :
    Except Unit (List Job) :=
  match env.craft_queries resume_text search_prompt with
  | .error e => .error e
  | .ok search_queries =>
    match find_urls_node env search_queries with
    | .error e => .error e
    | .ok urls_to_process =>
      let extracted_jobs :=
        if should_process_urls_router urls_to_process then
          process_urls_in_parallel env urls_to_process
        else []
      .ok (process_and_match_node env extracted_jobs resume_text search_prompt)

/-! ## Concrete instances used to evaluate the embedded code -/

/-- Baseline oracle assignment: constant one-dimensional embeddings,
cosine 1, empty skill sets, "not specified" experience, a provider that
returns an empty result list, and trivially succeeding page steps. -/
def envBase : Env where
  encode := fun _ => [1]
  cosine := fun _ _ => 1
  parse_resume_doc := fun _ => ⟨∅, "not specified"⟩
  resume_parse_embedding := fun _ => [1]
  parse_job_doc := fun _ => ⟨∅, "not specified"⟩
  geocode := fun _ => none
  geodesicKm := fun _ _ => 0
  craft_queries := fun _ _ => .ok ["software engineering internships"]
  search := fun _ => .ok "[]"
  decodeSearch := fun _ => .items []
  fetch_step := fun _ => .ok ""
  classify_step := fun _ => .ok .IRRELEVANT
  extract_step := fun _ => .ok none
  ingest := fun _ => .ok ()

/-- A minimal job with a non-empty description and no precomputed
embeddings, salary, or score. -/
def job0 : Job := { title := "t", company := "c", description := "d", source_url := "u" }

/-- `job0` as the ranking loop returns it: both embeddings lazily filled
by `envBase.encode`, everything else — in particular `score` — untouched. -/
def job0ranked : Job :=
  { job0 with description_embedding := some [1], title_embedding := some [1] }

/-- A second job distinct from `job0` (different company) that receives
exactly the same similarity signals, hence the same overall score. -/
def job0twin : Job := { job0 with company := "c2" }

/-- Oracles for the dead-filter run: every cosine similarity is 2/5. -/
def env5 : Env := { envBase with cosine := fun _ _ => 2/5 }

/-- Filter parameters with a minimum overall score of 7/10 (all other
keys at their ranker.py defaults). -/
def params5 : FilterParams := { min_overall_score := 7/10 }

/-- Oracles for the role-relevance run: the prompt "p" embeds to [2] and
cosine against a [2] side yields 1/5, so the title-to-prompt similarity is
1/5 (below the 3/10 threshold) while every other similarity is 1. -/
def env4 : Env :=
  { envBase with
    encode := fun s => if s = "p" then [2] else [1]
    cosine := fun a _ => if a = [2] then 1/5 else 1 }

/-- Oracles whose page fetch always raises. -/
def envFetchFail : Env := { envBase with fetch_step := fun _ => .error () }

/-- Oracles whose search provider always raises a network error. -/
def envNetFail : Env := { envBase with search := fun _ => .error () }

/-- Oracles whose search answers the query "query" with a payload that
fails JSON decoding and every other query with the payload "null", which
decodes to a non-iterable value. -/
def envMalformed : Env :=
  { envBase with
    search := fun q => .ok (if q = "query" then "not json" else "null")
    decodeSearch := fun s =>
      if s = "not json" then .decodeError
      else if s = "null" then .notIterable
      else .items [] }

/-- Oracles whose single search result list repeats the link "u1". -/
def envDupLinks : Env :=
  { envBase with
    search := fun _ => .ok "payload"
    decodeSearch := fun _ => .items [some "u1", some "u2", some "u1", none] }

/-- `job0` with only the description embedding filled, as the loop leaves
it when no prompt embedding exists. -/
def job0descEmb : Job := { job0 with description_embedding := some [1] }

/-- `JobScore` entry of `job0` under `envBase` with prompt "prompt":
overall score 1*0.5 + 1*0.2 + 0*0.2 + 1*0.1 = 4/5. -/
def js0 : JobScore :=
  { job := job0ranked
    score := 4/5
    resume_similarity := 1
    prompt_similarity := 1
    skill_overlap := 0
    experience_match := 1 }

/-- `JobScore` entry of `job0` under `envBase` with an empty prompt:
overall score 1*0.5 + 0*0.2 + 0*0.2 + 1*0.1 = 3/5. -/
def js1 : JobScore :=
  { job := job0descEmb
    score := 3/5
    resume_similarity := 1
    prompt_similarity := 0
    skill_overlap := 0
    experience_match := 1 }

/-- `JobScore` entry of `job0` under `env5` (all cosines 2/5):
overall score (2/5)*0.5 + (2/5)*0.2 + 0*0.2 + 1*0.1 = 19/50. -/
def js5 : JobScore :=
  { job := job0ranked
    score := 19/50
    resume_similarity := 2/5
    prompt_similarity := 2/5
    skill_overlap := 0
    experience_match := 1 }

/-- Decidable equality for `Except`, used to evaluate the embedded
functions on concrete inputs. -/
instance exceptDecidableEq {ε α : Type} [DecidableEq ε] [DecidableEq α] :
    DecidableEq (Except ε α) := fun a b =>
  match a, b with
  | .error e, .error f => decidable_of_iff (e = f) (by simp)
  | .error _, .ok _ => isFalse (by simp)
  | .ok _, .error _ => isFalse (by simp)
  | .ok x, .ok y => decidable_of_iff (x = y) (by simp)

/-! ## Heap lemmas: the CPython routines preserve length and only move
elements already present (plus the new item). -/

theorem siftdown_aux_length : ∀ (fuel : Nat) (heap : List HeapEntry) (startpos pos : Nat)
    (newitem : HeapEntry) (out : List HeapEntry),
    siftdown_aux fuel heap startpos pos newitem = .ok out → out.length = heap.length := by
  intro fuel
  induction fuel with
  | zero =>
    intro heap startpos pos newitem out h
    simp only [siftdown_aux] at h
    cases h
    simp [List.length_set]
  | succ fuel ih =>
    intro heap startpos pos newitem out h
    simp only [siftdown_aux] at h
    split at h
    · split at h
      · simp at h
      · have := ih _ _ _ _ _ h
        simpa [List.length_set] using this
      · cases h
        simp [List.length_set]
    · cases h
      simp [List.length_set]

theorem siftdown_length (heap : List HeapEntry) (startpos pos : Nat) (newitem : HeapEntry)
    (out : List HeapEntry) (h : siftdown heap startpos pos newitem = .ok out) :
    out.length = heap.length :=
  siftdown_aux_length pos heap startpos pos newitem out h

theorem siftup_aux_length : ∀ (fuel : Nat) (heap : List HeapEntry) (pos : Nat)
    (newitem : HeapEntry) (startpos : Nat) (out : List HeapEntry),
    siftup_aux fuel heap pos newitem startpos = .ok out → out.length = heap.length := by
  intro fuel
  induction fuel with
  | zero =>
    intro heap pos newitem startpos out h
    simp only [siftup_aux] at h
    have := siftdown_length _ _ _ _ _ h
    simpa [List.length_set] using this
  | succ fuel ih =>
    intro heap pos newitem startpos out h
    simp only [siftup_aux] at h
    split at h
    · split at h
      · simp at h
      · have := ih _ _ _ _ _ h
        simpa [List.length_set] using this
    · have := siftdown_length _ _ _ _ _ h
      simpa [List.length_set] using this

theorem siftup_length (heap : List HeapEntry) (pos : Nat) (newitem : HeapEntry)
    (startpos : Nat) (out : List HeapEntry) (h : siftup heap pos newitem startpos = .ok out) :
    out.length = heap.length :=
  siftup_aux_length heap.length heap pos newitem startpos out h

theorem heappush_length (heap : List HeapEntry) (item : HeapEntry) (out : List HeapEntry)
    (h : heappush heap item = .ok out) : out.length = heap.length + 1 := by
  have := siftdown_length (heap ++ [item]) 0 heap.length item out h
  simpa using this

theorem heappop_length (heap : List HeapEntry) (e : HeapEntry) (rest : List HeapEntry)
    (h : heappop heap = .ok (e, rest)) : heap.length = rest.length + 1 := by
  rw [heappop] at h
  split at h
  · simp at h
  · rename_i lastelt heq
    have hne : heap ≠ [] := by
      rintro rfl
      simp at heq
    have hlen : heap.dropLast.length = heap.length - 1 := List.length_dropLast heap
    have hpos : 0 < heap.length := List.length_pos.mpr hne
    dsimp only at h
    split at h
    · cases h
      omega
    · cases hs : siftup (heap.dropLast.set 0 lastelt) 0 lastelt 0 with
      | error er =>
        rw [hs] at h
        simp at h
      | ok heap2 =>
        rw [hs] at h
        simp only [Except.ok.injEq, Prod.mk.injEq] at h
        obtain ⟨-, h2⟩ := h
        subst h2
        have := siftup_length (heap.dropLast.set 0 lastelt) 0 lastelt 0 heap2 hs
        simp only [List.length_set] at this
        omega

theorem heap_to_list_aux_length : ∀ (fuel : Nat) (heap : List HeapEntry)
    (out : List (JobScore × ℚ)), heap_to_list_aux fuel heap = .ok out →
    out.length = heap.length := by
  intro fuel
  induction fuel with
  | zero =>
    intro heap out h
    rw [heap_to_list_aux] at h
    split at h
    · rename_i hnil
      cases h
      simp [hnil]
    · simp at h
  | succ fuel ih =>
    intro heap out h
    rw [heap_to_list_aux] at h
    split at h
    · rename_i hnil
      cases h
      simp [hnil]
    · cases hp : heappop heap with
      | error er =>
        rw [hp] at h
        simp at h
      | ok pr =>
        obtain ⟨entry, rest⟩ := pr
        rw [hp] at h
        dsimp only at h
        cases ht : heap_to_list_aux fuel rest with
        | error er =>
          rw [ht] at h
          simp at h
        | ok tail =>
          rw [ht] at h
          simp only [Except.ok.injEq] at h
          subst h
          have h1 := heappop_length heap entry rest hp
          have h2 := ih rest tail ht
          simp only [List.length_cons]
          omega

theorem heap_to_list_length (heap : List HeapEntry) (out : List (JobScore × ℚ))
    (h : heap_to_list heap = .ok out) : out.length = heap.length :=
  heap_to_list_aux_length heap.length heap out h

theorem siftdown_aux_mem : ∀ (fuel : Nat) (heap : List HeapEntry) (startpos pos : Nat)
    (newitem : HeapEntry) (out : List HeapEntry), pos < heap.length →
    siftdown_aux fuel heap startpos pos newitem = .ok out →
    ∀ x ∈ out, x ∈ heap ∨ x = newitem := by
  intro fuel
  induction fuel with
  | zero =>
    intro heap startpos pos newitem out hpos h x hx
    simp only [siftdown_aux] at h
    cases h
    exact List.mem_or_eq_of_mem_set hx
  | succ fuel ih =>
    intro heap startpos pos newitem out hpos h x hx
    simp only [siftdown_aux] at h
    split at h
    · rename_i hsp
      split at h
      · simp at h
      · have hplt : (pos - 1) / 2 < pos := by
          have := Nat.div_le_self (pos - 1) 2
          omega
        have hmem := ih _ _ _ _ _ (by simp only [List.length_set]; omega) h x hx
        rcases hmem with hm | hm
        · rcases List.mem_or_eq_of_mem_set hm with hm2 | hm2
          · exact Or.inl hm2
          · subst hm2
            refine Or.inl ?_
            rw [List.getD_eq_getElem _ _ (by omega)]
            exact List.getElem_mem _
        · exact Or.inr hm
      · cases h
        exact List.mem_or_eq_of_mem_set hx
    · cases h
      exact List.mem_or_eq_of_mem_set hx

theorem siftdown_mem (heap : List HeapEntry) (startpos pos : Nat) (newitem : HeapEntry)
    (out : List HeapEntry) (hpos : pos < heap.length)
    (h : siftdown heap startpos pos newitem = .ok out) :
    ∀ x ∈ out, x ∈ heap ∨ x = newitem :=
  siftdown_aux_mem pos heap startpos pos newitem out hpos h

theorem pick_child_lt (heap : List HeapEntry) (childpos c : Nat)
    (hc : childpos < heap.length)
    (h : pick_child heap childpos (childpos + 1) = .ok c) :
    childpos ≤ c ∧ c < heap.length := by
  rw [pick_child] at h
  split at h
  · rename_i hr
    cases hlt : heapEntryLt (heap.getD childpos default) (heap.getD (childpos + 1) default) with
    | error er =>
      rw [hlt] at h
      simp at h
    | ok b =>
      rw [hlt] at h
      simp only [Except.ok.injEq] at h
      subst h
      constructor <;> split <;> omega
  · simp only [Except.ok.injEq] at h
    subst h
    omega

theorem siftup_aux_mem : ∀ (fuel : Nat) (heap : List HeapEntry) (pos : Nat)
    (newitem : HeapEntry) (startpos : Nat) (out : List HeapEntry), pos < heap.length →
    siftup_aux fuel heap pos newitem startpos = .ok out →
    ∀ x ∈ out, x ∈ heap ∨ x = newitem := by
  intro fuel
  induction fuel with
  | zero =>
    intro heap pos newitem startpos out hpos h x hx
    simp only [siftup_aux] at h
    rcases siftdown_mem _ _ _ _ _ (by simp only [List.length_set]; omega) h x hx with hm | hm
    · exact List.mem_or_eq_of_mem_set hm
    · exact Or.inr hm
  | succ fuel ih =>
    intro heap pos newitem startpos out hpos h x hx
    simp only [siftup_aux] at h
    split at h
    · rename_i hc
      split at h
      · simp at h
      · rename_i childpos2 heq
        have hb : childpos2 < heap.length := (pick_child_lt heap (2 * pos + 1) childpos2 hc heq).2
        have hmem := ih _ _ _ _ _ (by simp only [List.length_set]; omega) h x hx
        rcases hmem with hm | hm
        · rcases List.mem_or_eq_of_mem_set hm with hm2 | hm2
          · exact Or.inl hm2
          · subst hm2
            refine Or.inl ?_
            rw [List.getD_eq_getElem _ _ (by omega)]
            exact List.getElem_mem _
        · exact Or.inr hm
    · rcases siftdown_mem _ _ _ _ _ (by simp only [List.length_set]; omega) h x hx with hm | hm
      · exact List.mem_or_eq_of_mem_set hm
      · exact Or.inr hm

theorem siftup_mem (heap : List HeapEntry) (pos : Nat) (newitem : HeapEntry)
    (startpos : Nat) (out : List HeapEntry) (hpos : pos < heap.length)
    (h : siftup heap pos newitem startpos = .ok out) :
    ∀ x ∈ out, x ∈ heap ∨ x = newitem :=
  siftup_aux_mem heap.length heap pos newitem startpos out hpos h

theorem heappush_mem (heap : List HeapEntry) (item : HeapEntry) (out : List HeapEntry)
    (h : heappush heap item = .ok out) : ∀ x ∈ out, x ∈ heap ∨ x = item := by
  intro x hx
  rcases siftdown_mem (heap ++ [item]) 0 heap.length item out (by simp) h x hx with hm | hm
  · rcases List.mem_append.mp hm with hm2 | hm2
    · exact Or.inl hm2
    · exact Or.inr (by simpa using hm2)
  · exact Or.inr hm

theorem heappop_mem (heap : List HeapEntry) (e : HeapEntry) (rest : List HeapEntry)
    (h : heappop heap = .ok (e, rest)) : e ∈ heap ∧ ∀ x ∈ rest, x ∈ heap := by
  rw [heappop] at h
  split at h
  · simp at h
  · rename_i lastelt heq
    obtain ⟨ys, hys⟩ := List.getLast?_eq_some_iff.mp heq
    have hlast : lastelt ∈ heap := by
      rw [hys]
      simp
    have hsub : ∀ y ∈ heap.dropLast, y ∈ heap := fun y hy =>
      (List.dropLast_sublist heap).subset hy
    dsimp only at h
    split at h
    · rename_i hnil
      cases h
      constructor
      · exact hlast
      · intro x hx
        rw [hnil] at hx
        simp at hx
    · rename_i hnil
      have hdpos : 0 < heap.dropLast.length := by
        cases hdl : heap.dropLast with
        | nil => exact absurd hdl hnil
        | cons a l => simp [hdl]
      cases hs : siftup (heap.dropLast.set 0 lastelt) 0 lastelt 0 with
      | error er =>
        rw [hs] at h
        simp at h
      | ok heap2 =>
        rw [hs] at h
        simp only [Except.ok.injEq, Prod.mk.injEq] at h
        obtain ⟨h1, h2⟩ := h
        subst h1
        subst h2
        constructor
        · refine hsub _ ?_
          rw [List.getD_eq_getElem _ _ hdpos]
          exact List.getElem_mem _
        · intro x hx
          rcases siftup_mem (heap.dropLast.set 0 lastelt) 0 lastelt 0 heap2
              (by simp only [List.length_set]; omega) hs x hx with hm | hm
          · rcases List.mem_or_eq_of_mem_set hm with hm2 | hm2
            · exact hsub _ hm2
            · subst hm2
              exact hlast
          · subst hm
            exact hlast

theorem heap_to_list_aux_mem : ∀ (fuel : Nat) (heap : List HeapEntry)
    (out : List (JobScore × ℚ)), heap_to_list_aux fuel heap = .ok out →
    ∀ p ∈ out, ∃ en ∈ heap, p = (en.2, en.1) := by
  intro fuel
  induction fuel with
  | zero =>
    intro heap out h p hp
    rw [heap_to_list_aux] at h
    split at h
    · cases h
      simp at hp
    · simp at h
  | succ fuel ih =>
    intro heap out h p hp
    rw [heap_to_list_aux] at h
    split at h
    · cases h
      simp at hp
    · cases hpop : heappop heap with
      | error er =>
        rw [hpop] at h
        simp at h
      | ok pr =>
        obtain ⟨entry, rest⟩ := pr
        rw [hpop] at h
        dsimp only at h
        cases ht : heap_to_list_aux fuel rest with
        | error er =>
          rw [ht] at h
          simp at h
        | ok tail =>
          rw [ht] at h
          simp only [Except.ok.injEq] at h
          subst h
          obtain ⟨hentry, hrest⟩ := heappop_mem heap entry rest hpop
          rcases List.mem_cons.mp hp with hm | hm
          · exact ⟨entry, hentry, hm⟩
          · obtain ⟨en, hen, hpe⟩ := ih rest tail ht p hm
            exact ⟨en, hrest en hen, hpe⟩

theorem heap_to_list_mem (heap : List HeapEntry) (out : List (JobScore × ℚ))
    (h : heap_to_list heap = .ok out) : ∀ p ∈ out, ∃ en ∈ heap, p = (en.2, en.1) :=
  heap_to_list_aux_mem heap.length heap out h

/-! ## Ranking-loop lemmas -/

theorem job_signals_job_score (env : Env) (pe : Option (List ℚ)) (re : List ℚ) (job : Job) :
    ((job_signals env pe re job).1).score = job.score := by
  cases pe with
  | none =>
    simp only [job_signals]
    split <;> rfl
  | some pe =>
    simp only [job_signals]
    split <;> first
    | rfl
    | (split <;> rfl)

theorem except_bind_ok {ε α β : Type} (x : Except ε α) (f : α → Except ε β) (b : β)
    (h : x >>= f = .ok b) : ∃ a, x = .ok a ∧ f a = .ok b := by
  cases x with
  | error e => simp [Bind.bind, Except.bind] at h
  | ok a => exact ⟨a, rfl, by simpa [Bind.bind, Except.bind] using h⟩

theorem process_job_length_le (env : Env) (fp : FilterParams) (pr : ParsedDoc)
    (re : List ℚ) (pe : Option (List ℚ)) (heap : List HeapEntry) (job : Job)
    (out : List HeapEntry) (hle : heap.length ≤ 100)
    (h : process_job env fp pr re pe heap job = .ok out) : out.length ≤ 100 := by
  rw [process_job] at h
  dsimp only at h
  split at h
  · cases h
    exact hle
  · split at h
    · cases h
      exact hle
    · split at h
      · have := heappush_length _ _ _ h
        rename_i hlen
        omega
      · split at h
        · cases hp : heappop heap with
          | error er =>
            rw [hp] at h
            simp at h
          | ok pr2 =>
            obtain ⟨e0, rest⟩ := pr2
            rw [hp] at h
            dsimp only at h
            have h1 := heappop_length _ _ _ hp
            have h2 := heappush_length _ _ _ h
            omega
        · cases h
          exact hle

theorem process_job_mem (env : Env) (fp : FilterParams) (pr : ParsedDoc)
    (re : List ℚ) (pe : Option (List ℚ)) (heap : List HeapEntry) (job : Job)
    (out : List HeapEntry) (h : process_job env fp pr re pe heap job = .ok out) :
    ∀ x ∈ out, x ∈ heap ∨ x.2.job.score = job.score := by
  rw [process_job] at h
  dsimp only at h
  split at h
  · cases h
    exact fun x hx => Or.inl hx
  · split at h
    · cases h
      exact fun x hx => Or.inl hx
    · split at h
      · intro x hx
        rcases heappush_mem _ _ _ h x hx with hm | hm
        · exact Or.inl hm
        · subst hm
          exact Or.inr (job_signals_job_score env pe re job)
      · split at h
        · cases hp : heappop heap with
          | error er =>
            rw [hp] at h
            simp at h
          | ok pr2 =>
            obtain ⟨e0, rest⟩ := pr2
            rw [hp] at h
            dsimp only at h
            intro x hx
            rcases heappush_mem _ _ _ h x hx with hm | hm
            · exact Or.inl ((heappop_mem _ _ _ hp).2 x hm)
            · subst hm
              exact Or.inr (job_signals_job_score env pe re job)
        · cases h
          exact fun x hx => Or.inl hx

theorem foldlM_process_job_length (env : Env) (fp : FilterParams) (pr : ParsedDoc)
    (re : List ℚ) (pe : Option (List ℚ)) :
    ∀ (jobs : List Job) (heap : List HeapEntry) (out : List HeapEntry),
    heap.length ≤ 100 →
    List.foldlM (process_job env fp pr re pe) heap jobs = .ok out → out.length ≤ 100 := by
  intro jobs
  induction jobs with
  | nil =>
    intro heap out hle h
    simp only [List.foldlM_nil] at h
    cases h
    exact hle
  | cons j js ih =>
    intro heap out hle h
    rw [List.foldlM_cons] at h
    obtain ⟨h1, hx1, hx2⟩ := except_bind_ok _ _ _ h
    exact ih h1 out (process_job_length_le env fp pr re pe heap j h1 hle hx1) hx2

theorem foldlM_process_job_mem (env : Env) (fp : FilterParams) (pr : ParsedDoc)
    (re : List ℚ) (pe : Option (List ℚ)) :
    ∀ (jobs : List Job) (heap : List HeapEntry) (out : List HeapEntry),
    List.foldlM (process_job env fp pr re pe) heap jobs = .ok out →
    ∀ x ∈ out, x ∈ heap ∨ ∃ j ∈ jobs, x.2.job.score = j.score := by
  intro jobs
  induction jobs with
  | nil =>
    intro heap out h
    simp only [List.foldlM_nil] at h
    cases h
    exact fun x hx => Or.inl hx
  | cons j js ih =>
    intro heap out h x hx
    rw [List.foldlM_cons] at h
    obtain ⟨h1, hx1, hx2⟩ := except_bind_ok _ _ _ h
    rcases ih h1 out hx2 x hx with hm | hm
    · rcases process_job_mem env fp pr re pe heap j h1 hx1 x hm with hm2 | hm2
      · exact Or.inl hm2
      · exact Or.inr ⟨j, List.mem_cons_self j js, hm2⟩
    · obtain ⟨j2, hj2, hs⟩ := hm
      exact Or.inr ⟨j2, List.mem_cons_of_mem j hj2, hs⟩

theorem insert_desc_length (p : JobScore × ℚ) (l : List (JobScore × ℚ)) :
    (insert_desc p l).length = l.length + 1 := by
  induction l with
  | nil => rfl
  | cons q rest ih =>
    rw [insert_desc]
    split
    · simp [ih]
    · simp

theorem sort_by_score_desc_length (l : List (JobScore × ℚ)) :
    (sort_by_score_desc l).length = l.length := by
  induction l with
  | nil => rfl
  | cons p rest ih =>
    rw [sort_by_score_desc, insert_desc_length, ih, List.length_cons]

theorem insert_desc_mem (p x : JobScore × ℚ) (l : List (JobScore × ℚ)) :
    x ∈ insert_desc p l ↔ x = p ∨ x ∈ l := by
  induction l with
  | nil => simp [insert_desc]
  | cons q rest ih =>
    rw [insert_desc]
    split
    · simp only [List.mem_cons, ih]
      tauto
    · simp only [List.mem_cons]

theorem sort_by_score_desc_mem (x : JobScore × ℚ) (l : List (JobScore × ℚ)) :
    x ∈ sort_by_score_desc l ↔ x ∈ l := by
  induction l with
  | nil => simp [sort_by_score_desc]
  | cons p rest ih =>
    rw [sort_by_score_desc, insert_desc_mem]
    simp [ih]

theorem insert_desc_sorted (p : JobScore × ℚ) (l : List (JobScore × ℚ))
    (h : List.Pairwise (fun a b : JobScore × ℚ => b.2 ≤ a.2) l) :
    List.Pairwise (fun a b : JobScore × ℚ => b.2 ≤ a.2) (insert_desc p l) := by
  induction l with
  | nil => simp [insert_desc]
  | cons q rest ih =>
    rw [List.pairwise_cons] at h
    rw [insert_desc]
    split
    · rename_i hlt
      rw [List.pairwise_cons]
      constructor
      · intro b hb
        rcases (insert_desc_mem p b rest).mp hb with rfl | hb
        · exact le_of_lt hlt
        · exact h.1 b hb
      · exact ih h.2
    · rename_i hge
      rw [List.pairwise_cons]
      constructor
      · intro b hb
        rcases List.mem_cons.mp hb with rfl | hb
        · exact not_lt.mp hge
        · exact le_trans (h.1 b hb) (not_lt.mp hge)
      · exact List.pairwise_cons.mpr h
  
theorem sort_by_score_desc_sorted (l : List (JobScore × ℚ)) :
    List.Pairwise (fun a b : JobScore × ℚ => b.2 ≤ a.2) (sort_by_score_desc l) := by
  induction l with
  | nil => simp [sort_by_score_desc]
  | cons p rest ih =>
    rw [sort_by_score_desc]
    exact insert_desc_sorted p _ ih

/-! ## Claim theorems -/

/-- C1 (amended): for every input on which `rank_and_filter_jobs` returns
(does not raise), the result has at most `k = 100` entries and is sorted by
non-increasing overall score, and the returned `Job` records carry their
**input** `score` field unchanged — ranker.py never writes `job.score`, so
the score is not populated by ranking. -/
theorem rank_and_filter_jobs_topK_sorted (env : Env) (jobs : List Job)
    (resume_text search_prompt : String) (filter_params : FilterParams)
    (ranked : List (JobScore × ℚ))
    (h : rank_and_filter_jobs_scored env jobs resume_text search_prompt filter_params =
      .ok ranked) :
    ranked.length ≤ 100 ∧
    List.Pairwise (fun a b : JobScore × ℚ => b.2 ≤ a.2) ranked ∧
    rank_and_filter_jobs env jobs resume_text search_prompt filter_params =
      .ok (ranked.map (fun p => p.1.job)) ∧
    ∀ p ∈ ranked, ∃ j ∈ jobs, p.1.job.score = j.score := by
  have hrank : rank_and_filter_jobs env jobs resume_text search_prompt filter_params =
      .ok (ranked.map (fun p => p.1.job)) := by
    rw [rank_and_filter_jobs, h]
    rfl
  rw [rank_and_filter_jobs_scored] at h
  split at h
  · cases h
    exact ⟨by simp, by simp, hrank, by simp⟩
  · rw [rank_loop] at h
    split at h
    · simp at h
    · rename_i heap hfold
      split at h
      · simp at h
      · rename_i sjs hlist
        cases h
        have hlen : heap.length ≤ 100 :=
          foldlM_process_job_length _ _ _ _ _ jobs [] heap (by simp) hfold
        have hsjslen : sjs.length = heap.length := heap_to_list_length heap sjs hlist
        refine ⟨?_, ?_, hrank, ?_⟩
        · rw [sort_by_score_desc_length]
          omega
        · exact sort_by_score_desc_sorted sjs
        · intro p hp
          have hp2 : p ∈ sjs := (sort_by_score_desc_mem p sjs).mp hp
          obtain ⟨en, hen, rfl⟩ := heap_to_list_mem heap sjs hlist p hp2
          rcases foldlM_process_job_mem _ _ _ _ _ jobs [] heap hfold en hen with hm | hm
          · simp at hm
          · exact hm

/-- C1 (counterexample to the claim as stated): ranking a job whose
`score` is `None` returns it with `score` still `None` — the `score` field
is not populated on the returned jobs. -/
theorem rank_score_not_populated :
    rank_and_filter_jobs envBase [job0] "resume" "prompt" {} = .ok [job0ranked] ∧
    job0ranked.score = none := by
  have hpj : process_job envBase {} ⟨∅, "not specified"⟩ [1] (some [1]) [] job0 =
      .ok [((4/5 : ℚ), js0)] := by
    norm_num [process_job, job_signals, envBase, job0, job0ranked, js0, calculate_similarity,
      overall_score, skill_overlap_live, exp_match_live, heappush, siftdown, siftdown_aux]
    try decide
  have h1 : List.foldlM (process_job envBase {} ⟨∅, "not specified"⟩ [1] (some [1])) []
      [job0] = .ok [((4/5 : ℚ), js0)] := by
    rw [List.foldlM_cons, hpj]
    rfl
  have h2 : heap_to_list [((4/5 : ℚ), js0)] = .ok [(js0, (4/5 : ℚ))] := by
    norm_num [heap_to_list, heap_to_list_aux, heappop]
  have hloop : rank_loop envBase {} ⟨∅, "not specified"⟩ [1] (some [1]) [job0] =
      .ok [(js0, (4/5 : ℚ))] := by
    rw [rank_loop, h1]
    dsimp only
    rw [h2]
    dsimp only
    simp [sort_by_score_desc, insert_desc]
  have h3 : rank_and_filter_jobs_scored envBase [job0] "resume" "prompt" {} =
      .ok [(js0, (4/5 : ℚ))] := by
    rw [rank_and_filter_jobs_scored, if_neg (show ¬([job0] = []) by simp)]
    exact hloop
  constructor
  · rw [rank_and_filter_jobs, h3]
    rfl
  · rfl

/-- C1 witness: the amended theorem applied to a concrete run (one job
with an empty description, which the loop skips). -/
theorem rank_and_filter_jobs_topK_sorted_witness :
    rank_and_filter_jobs_scored envBase [{ job0 with description := "" }] "resume" "prompt" {} =
      .ok [] ∧
    (([] : List (JobScore × ℚ)).length ≤ 100 ∧
      List.Pairwise (fun a b : JobScore × ℚ => b.2 ≤ a.2) ([] : List (JobScore × ℚ)) ∧
      rank_and_filter_jobs envBase [{ job0 with description := "" }] "resume" "prompt" {} =
        .ok (([] : List (JobScore × ℚ)).map (fun p => p.1.job)) ∧
      ∀ p ∈ ([] : List (JobScore × ℚ)),
        ∃ j ∈ [{ job0 with description := "" }], p.1.job.score = j.score) :=
  ⟨by decide,
    rank_and_filter_jobs_topK_sorted envBase [{ job0 with description := "" }]
      "resume" "prompt" {} [] (by decide)⟩

/-- C10: two distinct jobs (different `company`) with identical similarity
signals receive exactly equal overall scores; pushing the second
`(score, JobScore)` tuple onto the heap compares it against the first,
falls through the equal scores to the `JobScore` named tuples, reaches the
`Job` objects — which define no ordering — and raises `TypeError`, which
propagates out of `rank_and_filter_jobs`. -/
theorem rank_equal_scores_type_error :
    rank_and_filter_jobs envBase [job0, job0twin] "resume" "" {} = .error .typeError := by
  have hpj1 : process_job envBase {} ⟨∅, "not specified"⟩ [1] none [] job0 =
      .ok [((3/5 : ℚ), js1)] := by
    norm_num [process_job, job_signals, envBase, job0, job0descEmb, js1, calculate_similarity,
      overall_score, skill_overlap_live, exp_match_live, heappush, siftdown, siftdown_aux]
    try decide
  have hpj2 : process_job envBase {} ⟨∅, "not specified"⟩ [1] none [((3/5 : ℚ), js1)]
      job0twin = .error .typeError := by
    norm_num [process_job, job_signals, envBase, job0, job0twin, job0descEmb, js1,
      calculate_similarity, overall_score, skill_overlap_live, exp_match_live,
      heappush, siftdown, siftdown_aux, heapEntryLt, jobScoreLt, ratLexLt, List.getD]
    try decide
  have hfold : List.foldlM (process_job envBase {} ⟨∅, "not specified"⟩ [1] none) []
      [job0, job0twin] = .error .typeError := by
    rw [List.foldlM_cons, hpj1]
    show List.foldlM (process_job envBase {} ⟨∅, "not specified"⟩ [1] none)
      [((3/5 : ℚ), js1)] [job0twin] = .error .typeError
    rw [List.foldlM_cons, hpj2]
    rfl
  have hloop : rank_loop envBase {} ⟨∅, "not specified"⟩ [1] none [job0, job0twin] =
      .error .typeError := by
    rw [rank_loop, hfold]
  have h3 : rank_and_filter_jobs_scored envBase [job0, job0twin] "resume" "" {} =
      .error .typeError := by
    rw [rank_and_filter_jobs_scored, if_neg (show ¬([job0, job0twin] = []) by simp)]
    exact hloop
  rw [rank_and_filter_jobs, h3]
  rfl

/-- C3 (counterexample to the claim as stated): on {"a","b"} and
{"b","c"} the implemented overlap `|∩| / max(|A|, |B|, 1)` yields 1/2
while the Jaccard similarity `|∩| / |∪|` the spec prescribes yields 1/3. -/
theorem skill_overlap_ne_jaccard :
    skill_overlap {"a", "b"} {"b", "c"} = 1/2 ∧
    jaccard_similarity {"a", "b"} {"b", "c"} = 1/3 ∧
    ((1 : ℚ)/2) ≠ 1/3 := by
  have h1 : (({"a", "b"} : Finset String) ∩ {"b", "c"}).card = 1 := by decide
  have h2 : ({"a", "b"} : Finset String).card = 2 := by decide
  have h3 : ({"b", "c"} : Finset String).card = 2 := by decide
  have h4 : (({"a", "b"} : Finset String) ∪ {"b", "c"}).card = 3 := by decide
  refine ⟨?_, ?_, by norm_num⟩
  · rw [skill_overlap, h1, h2, h3]
    norm_num
  · rw [jaccard_similarity, h1, h4]
    norm_num

/-- C3 (amended): the `skillOverlap` signal is `|∩| / max(|A|, |B|, 1)`
rather than Jaccard, but it still satisfies every property the spec lists:
it is symmetric, bounded in [0,1], exactly 0 on disjoint sets, and exactly
1 on identical nonempty sets. -/
theorem skill_overlap_properties (a b : Finset String) :
    skill_overlap a b = skill_overlap b a ∧
    0 ≤ skill_overlap a b ∧ skill_overlap a b ≤ 1 ∧
    (Disjoint a b → skill_overlap a b = 0) ∧
    (a = b → a.Nonempty → skill_overlap a b = 1) := by
  refine ⟨?_, ?_, ?_, ?_, ?_⟩
  · rw [skill_overlap, skill_overlap, Finset.inter_comm, Nat.max_comm a.card b.card]
  · rw [skill_overlap]
    positivity
  · rw [skill_overlap]
    rw [div_le_one (by positivity)]
    have hle : (a ∩ b).card ≤ max (max a.card b.card) 1 :=
      le_trans (Finset.card_le_card Finset.inter_subset_left)
        (le_trans (le_max_left _ _) (le_max_left _ _))
    exact_mod_cast hle
  · intro hd
    rw [skill_overlap, Finset.disjoint_iff_inter_eq_empty.mp hd]
    simp
  · rintro rfl hne
    rw [skill_overlap, Finset.inter_self, Nat.max_self,
      Nat.max_eq_left (Finset.card_pos.mpr hne)]
    rw [div_self]
    exact_mod_cast Finset.card_ne_zero_of_mem hne.choose_spec

/-- C3 witness: the amended theorem applied to the concrete disjoint pair
{"a"}, {"b"} and the identical nonempty pair {"a"}, {"a"}. -/
theorem skill_overlap_properties_witness :
    Disjoint ({"a"} : Finset String) {"b"} ∧
    skill_overlap {"a"} {"b"} = 0 ∧
    skill_overlap {"a"} {"a"} = 1 :=
  ⟨by decide, (skill_overlap_properties {"a"} {"b"}).2.2.2.1 (by decide),
    (skill_overlap_properties {"a"} {"a"}).2.2.2.2 rfl (by decide)⟩

/-- C6: the experience-match signal is 1.0 for (not specified,
not specified), 0.5 for (senior, not specified), follows the logarithmic
decay `1 − log2(1+Δ)/log2(5)` on two specified tiers, and the
(internship, lead) value is strictly below the (internship, entry_level)
value. -/
theorem experience_match_spec_cases :
    experience_match_score (EXPERIENCE_LEVELS "not specified")
      (EXPERIENCE_LEVELS "not specified") = 1 ∧
    experience_match_score (EXPERIENCE_LEVELS "senior")
      (EXPERIENCE_LEVELS "not specified") = 1/2 ∧
    (∀ r j : Int, r ≠ -1 → j ≠ -1 →
      experience_match_score r j =
        1 - Real.logb 2 (1 + ((|r - j| : ℤ) : ℝ)) / Real.logb 2 5) ∧
    experience_match_score (EXPERIENCE_LEVELS "internship") (EXPERIENCE_LEVELS "lead") <
      experience_match_score (EXPERIENCE_LEVELS "internship")
        (EXPERIENCE_LEVELS "entry_level") := by
  have eNS : EXPERIENCE_LEVELS "not specified" = -1 := by decide
  have eSr : EXPERIENCE_LEVELS "senior" = 3 := by decide
  have eIn : EXPERIENCE_LEVELS "internship" = 0 := by decide
  have eLd : EXPERIENCE_LEVELS "lead" = 4 := by decide
  have eEn : EXPERIENCE_LEVELS "entry_level" = 1 := by decide
  have hformula : ∀ r j : Int, r ≠ -1 → j ≠ -1 →
      experience_match_score r j =
        1 - Real.logb 2 (1 + ((|r - j| : ℤ) : ℝ)) / Real.logb 2 5 := by
    intro r j hr hj
    rw [experience_match_score, if_neg (by tauto), if_neg (by tauto)]
    norm_num [MAX_EXPERIENCE_DIFF]
  have hlog1 : (1 : ℝ) < Real.logb 2 5 := by
    have h2 : Real.logb 2 (2 : ℝ) = 1 := Real.logb_self_eq_one (by norm_num)
    have h25 : Real.logb 2 (2 : ℝ) < Real.logb 2 5 :=
      Real.logb_lt_logb (by norm_num) (by norm_num) (by norm_num)
    linarith
  have hlogpos : (0 : ℝ) < Real.logb 2 5 := by linarith
  refine ⟨?_, ?_, hformula, ?_⟩
  · rw [eNS, experience_match_score, if_pos ⟨rfl, rfl⟩]
  · rw [eSr, eNS, experience_match_score, if_neg (by norm_num),
      if_pos (Or.inr rfl)]
    norm_num
  · rw [eIn, eLd, eEn]
    have hl : experience_match_score 0 4 = 0 := by
      rw [hformula 0 4 (by decide) (by decide)]
      norm_num
    have hr : experience_match_score 0 1 = 1 - 1 / Real.logb 2 5 := by
      rw [hformula 0 1 (by decide) (by decide)]
      norm_num [Real.logb_self_eq_one]
    rw [hl, hr]
    have : 1 / Real.logb 2 5 < 1 := (div_lt_one hlogpos).mpr hlog1
    linarith

/-- C6 witness: the log-decay clause of `experience_match_spec_cases`
instantiated at the specified tiers 0 (internship) and 4 (lead). -/
theorem experience_match_spec_cases_witness :
    ((0 : Int) ≠ -1) ∧ ((4 : Int) ≠ -1) ∧
    experience_match_score 0 4 =
      1 - Real.logb 2 (1 + ((|(0 : Int) - 4| : ℤ) : ℝ)) / Real.logb 2 5 :=
  ⟨by decide, by decide, experience_match_spec_cases.2.2.1 0 4 (by decide) (by decide)⟩

/-- Per-URL contributions compose pointwise: the two-phase batch
(gather classifications, then extract the `JOB_DESCRIPTION` pages) equals
a single `filterMap` of the per-URL function. -/
theorem process_urls_eq_filterMap (env : Env) (urls : List String) :
    process_urls_in_parallel env urls = urls.filterMap (url_job env) := by
  induction urls with
  | nil => rfl
  | cons u us ih =>
    simp only [process_urls_in_parallel, List.map_cons, List.zip_cons_cons,
      List.filterMap_cons] at ih ⊢
    cases hpu : process_url env u with
    | mk text c =>
      cases text with
      | none =>
        cases c <;> simp only [url_job, hpu] <;> exact ih
      | some t =>
        cases c with
        | JOB_DESCRIPTION =>
          simp only [url_job, hpu, List.map_cons, List.filterMap_cons]
          cases hx : extract_job_details env t u with
          | none => simpa [hx] using ih
          | some j => simpa [hx] using ih
        | JOB_BOARD => simp only [url_job, hpu] ; exact ih
        | IRRELEVANT => simp only [url_job, hpu] ; exact ih

/-- A URL whose fetch, classify, or (when reached) extract sub-step
raises contributes no job. -/
theorem url_step_fails_no_job (env : Env) (url : String)
    (hf : url_step_fails env url) : url_job env url = none := by
  rcases hf with ⟨e, he⟩ | ⟨t, ht, e, he⟩ | ⟨t, ht, hc, e, he⟩
  · simp [url_job, process_url, he]
  · by_cases h0 : t = ""
    · simp [url_job, process_url, ht, h0]
    · simp [url_job, process_url, ht, h0, he]
  · by_cases h0 : t = ""
    · simp [url_job, process_url, ht, h0]
    · simp [url_job, process_url, extract_job_details, ht, h0, hc, he]

/-- C2: the batch result is the pointwise `filterMap` of the per-URL
contribution — so one URL's outcome cannot affect another's, and the batch
function is total (no exception escapes) — and every URL on which a fetch,
classify, or extract sub-step raises resolves to "no job produced". -/
theorem process_urls_per_url_isolation (env : Env) (urls : List String) :
    process_urls_in_parallel env urls = urls.filterMap (url_job env) ∧
    ∀ url, url_step_fails env url → url_job env url = none :=
  ⟨process_urls_eq_filterMap env urls,
    fun url hf => url_step_fails_no_job env url hf⟩

/-- C2 witness: a URL whose fetch raises yields no job and leaves the
batch equal to its pointwise decomposition. -/
theorem process_urls_per_url_isolation_witness :
    url_step_fails envFetchFail "u" ∧
    url_job envFetchFail "u" = none ∧
    process_urls_in_parallel envFetchFail ["u"] = ["u"].filterMap (url_job envFetchFail) :=
  ⟨Or.inl ⟨(), rfl⟩,
    (process_urls_per_url_isolation envFetchFail ["u"]).2 "u" (Or.inl ⟨(), rfl⟩),
    (process_urls_per_url_isolation envFetchFail ["u"]).1⟩

theorem add_url_nodup (acc : List String) (link : String) (hn : acc.Nodup) :
    (add_url acc link).Nodup := by
  rw [add_url]
  split
  · exact hn
  · rename_i hmem
    rw [List.nodup_append]
    exact ⟨hn, List.nodup_singleton link,
      fun x hx hx2 => hmem (List.mem_singleton.mp hx2 ▸ hx)⟩

theorem links_foldl_nodup (items : List (Option String)) :
    ∀ (acc : List String), acc.Nodup →
    (items.foldl (fun acc link? =>
      match link? with
      | some link => add_url acc link
      | none => acc) acc).Nodup := by
  induction items with
  | nil => exact fun acc hn => hn
  | cons it rest ih =>
    intro acc hn
    rw [List.foldl_cons]
    cases it with
    | none => exact ih acc hn
    | some link => exact ih (add_url acc link) (add_url_nodup acc link hn)

theorem find_urls_step_nodup (env : Env) (acc out : List String) (q : String)
    (hn : acc.Nodup) (h : find_urls_step env acc q = .ok out) : out.Nodup := by
  rw [find_urls_step] at h
  split at h
  · simp at h
  · split at h
    · simp only [Except.ok.injEq] at h
      subst h
      exact hn
    · simp at h
    · simp only [Except.ok.injEq] at h
      subst h
      exact links_foldl_nodup _ acc hn

theorem foldlM_find_urls_nodup (env : Env) :
    ∀ (qs : List String) (acc urls : List String), acc.Nodup →
    List.foldlM (find_urls_step env) acc qs = .ok urls → urls.Nodup := by
  intro qs
  induction qs with
  | nil =>
    intro acc urls hn h
    simp only [List.foldlM_nil] at h
    cases h
    exact hn
  | cons q rest ih =>
    intro acc urls hn h
    rw [List.foldlM_cons] at h
    obtain ⟨acc2, h1, h2⟩ := except_bind_ok _ _ _ h
    exact ih acc2 urls (find_urls_step_nodup env acc acc2 q hn h1) h2

/-- C9: whenever discovery returns, the `urls_to_process` list contains
each URL at most once — insertion into the `all_urls` set de-duplicates by
exact string match, across all queries. -/
theorem find_urls_nodup (env : Env) (search_queries urls : List String)
    (h : find_urls_node env search_queries = .ok urls) : urls.Nodup :=
  foldlM_find_urls_nodup env search_queries [] urls List.nodup_nil h

/-- C9 witness: two queries-worth of results sharing the link "u1" yield
a duplicate-free URL list. -/
theorem find_urls_nodup_witness :
    find_urls_node envDupLinks ["query"] = .ok ["u1", "u2"] ∧
    (["u1", "u2"] : List String).Nodup :=
  ⟨by rfl, find_urls_nodup envDupLinks ["query"] ["u1", "u2"] (by rfl)⟩

/-- C7 (counterexample to the claim as stated): an exception raised by the
search call for a single query is not caught inside `find_urls_node` and
aborts the whole discovery node instead of being treated as zero results. -/
theorem find_urls_network_error_fatal :
    find_urls_node envNetFail ["query"] = .error () := by rfl

theorem foldlM_find_urls_ok (env : Env) :
    ∀ (qs : List String) (acc : List String),
    (∀ x ∈ qs, ∃ r, env.search x = .ok r ∧ env.decodeSearch r ≠ .notIterable) →
    ∃ urls, List.foldlM (find_urls_step env) acc qs = .ok urls := by
  intro qs
  induction qs with
  | nil => exact fun acc _ => ⟨acc, rfl⟩
  | cons q rest ih =>
    intro acc hall
    obtain ⟨r, hr, hni⟩ := hall q (List.mem_cons_self q rest)
    rw [List.foldlM_cons, find_urls_step, hr]
    dsimp only
    cases hd : env.decodeSearch r with
    | decodeError =>
      exact ih acc (fun x hx => hall x (List.mem_cons_of_mem q hx))
    | notIterable => exact absurd hd hni
    | items links =>
      exact ih _ (fun x hx => hall x (List.mem_cons_of_mem q hx))

/-- C7 (amended): a query whose payload fails JSON decoding is skipped — it
contributes zero URLs and discovery continues over the remaining queries
unchanged — and discovery returns normally whenever every search call
succeeds and no decoded payload is non-iterable; but a decodable
non-iterable payload makes that query's step raise (the `TypeError` at
`for result in results_list` is not caught by the `except
json.JSONDecodeError` clause), and a raised search exception is likewise
fatal for the node (`find_urls_network_error_fatal`). -/
theorem find_urls_malformed_skipped (env : Env) (qs1 qs2 : List String) (q s : String)
    (hok : env.search q = .ok s) (hbad : env.decodeSearch s = .decodeError) :
    find_urls_node env (qs1 ++ q :: qs2) = find_urls_node env (qs1 ++ qs2) ∧
    ((∀ x ∈ qs1 ++ q :: qs2, ∃ r, env.search x = .ok r ∧
        env.decodeSearch r ≠ .notIterable) →
      ∃ urls, find_urls_node env (qs1 ++ q :: qs2) = .ok urls) ∧
    (∀ q2 s2, env.search q2 = .ok s2 → env.decodeSearch s2 = .notIterable →
      ∀ acc, find_urls_step env acc q2 = .error ()) := by
  have hstep : ∀ acc, find_urls_step env acc q = .ok acc := by
    intro acc
    rw [find_urls_step, hok]
    dsimp only
    rw [hbad]
  refine ⟨?_, ?_, ?_⟩
  · rw [find_urls_node, find_urls_node, List.foldlM_append, List.foldlM_append]
    cases h1 : List.foldlM (find_urls_step env) [] qs1 with
    | error e => rfl
    | ok acc =>
      show List.foldlM (find_urls_step env) acc (q :: qs2) =
        List.foldlM (find_urls_step env) acc qs2
      rw [List.foldlM_cons, hstep acc]
      rfl
  · intro hall
    exact foldlM_find_urls_ok env (qs1 ++ q :: qs2) [] hall
  · intro q2 s2 h2ok h2bad acc
    rw [find_urls_step, h2ok]
    dsimp only
    rw [h2bad]

/-- C7 witness: the amended theorem applied to one undecodable query, and
its non-iterable-payload conjunct applied to a query of the same oracle
whose payload decodes to a non-iterable value. -/
theorem find_urls_malformed_skipped_witness :
    envMalformed.search "query" = .ok "not json" ∧
    envMalformed.decodeSearch "not json" = .decodeError ∧
    find_urls_node envMalformed ([] ++ "query" :: []) = find_urls_node envMalformed ([] ++ []) ∧
    envMalformed.search "other" = .ok "null" ∧
    envMalformed.decodeSearch "null" = .notIterable ∧
    find_urls_step envMalformed [] "other" = .error () :=
  ⟨rfl, rfl,
    (find_urls_malformed_skipped envMalformed [] [] "query" "not json" rfl rfl).1,
    rfl, rfl,
    (find_urls_malformed_skipped envMalformed [] [] "query" "not json" rfl rfl).2.2
      "other" "null" rfl rfl []⟩

/-- C8 (counterexample to the claim as stated): with the resume text
entirely absent the pipeline does not fail before any stage runs — every
stage executes and the run completes with `final_jobs = []`. -/
theorem pipeline_completes_empty_on_missing_resume :
    search_and_process_jobs envBase "" "prompt" = .ok [] := by rfl

/-- C8 (amended): an absent resume text or search prompt is never checked
before the stages run; when crafting and discovery return normally the
whole run completes with an empty final job list — the missing input is
only noticed by the last stage, which short-circuits to `[]` instead of
raising. -/
theorem pipeline_missing_input_yields_empty (env : Env)
    (resume_text search_prompt : String) (qs urls : List String)
    (hmiss : resume_text = "" ∨ search_prompt = "")
    (hcraft : env.craft_queries resume_text search_prompt = .ok qs)
    (hfind : find_urls_node env qs = .ok urls) :
    search_and_process_jobs env resume_text search_prompt = .ok [] := by
  rw [search_and_process_jobs, hcraft]
  dsimp only
  rw [hfind]
  dsimp only
  congr 1
  generalize (if should_process_urls_router urls then process_urls_in_parallel env urls
    else []) = extracted_jobs
  rcases hmiss with h | h
  · subst h
    rw [process_and_match_node]
    split
    · rfl
    · rw [if_pos rfl]
  · subst h
    rw [process_and_match_node]
    split
    · rfl
    · split
      · rfl
      · rw [if_pos rfl]

/-- C8 witness: the amended theorem applied to a concrete run with an
empty resume. -/
theorem pipeline_missing_input_yields_empty_witness :
    (("" : String) = "" ∨ ("prompt" : String) = "") ∧
    envBase.craft_queries "" "prompt" = .ok ["software engineering internships"] ∧
    find_urls_node envBase ["software engineering internships"] = .ok [] ∧
    search_and_process_jobs envBase "" "prompt" = .ok [] :=
  ⟨Or.inl rfl, rfl, by rfl,
    pipeline_missing_input_yields_empty envBase "" "prompt"
      ["software engineering internships"] [] (Or.inl rfl) rfl (by rfl)⟩

theorem env4_title_prompt_sim : calculate_similarity env4 [2] [1] = 1/5 := by
  rw [calculate_similarity, if_neg (by simp)]
  show (if ([2] : List ℚ) = [2] then (1/5 : ℚ) else 1) = 1/5
  rw [if_pos rfl]

theorem env4_title_resume_sim : calculate_similarity env4 [1] [1] = 1 := by
  rw [calculate_similarity, if_neg (by simp)]
  show (if ([1] : List ℚ) = [2] then (1/5 : ℚ) else 1) = 1
  rw [if_neg (by norm_num)]

/-- Shared shape of the role-relevance factor when the title-to-prompt
similarity is below the threshold, the title-to-resume similarity is not,
and the factor is not clipped at 0. -/
theorem role_relevance_below_above (env : Env) (filter_params : FilterParams)
    (pe te resume_embedding : List ℚ)
    (h1 : calculate_similarity env pe te < filter_params.role_relevance_threshold)
    (h2 : ¬ calculate_similarity env resume_embedding te <
      filter_params.role_relevance_threshold)
    (h3 : 0 ≤ 1 - (1 - calculate_similarity env pe te) *
      filter_params.role_relevance_boost_factor) :
    role_relevance env filter_params (some pe) resume_embedding (some te) =
      1 - (1 - calculate_similarity env pe te) *
        filter_params.role_relevance_boost_factor := by
  rw [role_relevance.eq_def]
  dsimp only
  rw [if_pos h1, if_neg h2]
  exact max_eq_left h3

/-- C4 (counterexample to the claim as stated): with the default
threshold 3/10 and boost factor 1/2, a title-to-prompt similarity of 1/5
(below the threshold) makes the code multiply the final score by
`1 − (1 − 1/5)·(1/2) = 3/5`, not by the spec's
`1 − (threshold − 1/5)·(1/2) = 19/20`. -/
theorem role_relevance_penalty_counterexample :
    role_relevance env4 {} (some [2]) [1] job0ranked.title_embedding = 3/5 ∧
    role_relevance_spec_factor (3/10) (1/2) (1/5) = 19/20 ∧
    post_heap_score env4 {} ⟨∅, "not specified"⟩ [1] (some [2]) job0ranked
        ⟨∅, "not specified"⟩ 1 (1/5) =
      base_score env4 {} ⟨∅, "not specified"⟩ ⟨∅, "not specified"⟩ (some [2]) job0ranked
          1 (1/5) * (((3/5 : ℚ) : ℝ)) ∧
    (3/5 : ℚ) ≠ 19/20 := by
  have hrr : role_relevance env4 {} (some [2]) [1] job0ranked.title_embedding = 3/5 := by
    show role_relevance env4 {} (some [2]) [1] (some [1]) = 3/5
    rw [role_relevance_below_above env4 {} [2] [1] [1]
      (by rw [env4_title_prompt_sim]; norm_num)
      (by rw [env4_title_resume_sim]; norm_num)
      (by rw [env4_title_prompt_sim]; norm_num)]
    rw [env4_title_prompt_sim]
    norm_num
  refine ⟨hrr, ?_, ?_, by norm_num⟩
  · rw [role_relevance_spec_factor,
      max_eq_left (by norm_num : (0 : ℚ) ≤ 1 - (3/10 - 1/5) * (1/2))]
    norm_num
  · rw [post_heap_score, hrr]

/-- C4 (amended): when the title-to-prompt similarity falls below the
threshold (and the title-to-resume similarity does not, and the factor is
not clipped at 0), the post-heap score is the base score multiplied by
`1 − (1 − similarity) × boostFactor` — the decrement uses
`(1 − similarity)`, not `(threshold − similarity)`. -/
theorem post_heap_score_penalty_factor (env : Env) (filter_params : FilterParams)
    (parsed_resume parsed_job : ParsedDoc) (resume_embedding : List ℚ) (pe te : List ℚ)
    (job : Job) (resume_similarity prompt_similarity : ℚ)
    (hte : job.title_embedding = some te)
    (h1 : calculate_similarity env pe te < filter_params.role_relevance_threshold)
    (h2 : ¬ calculate_similarity env resume_embedding te <
      filter_params.role_relevance_threshold)
    (h3 : 0 ≤ 1 - (1 - calculate_similarity env pe te) *
      filter_params.role_relevance_boost_factor) :
    post_heap_score env filter_params parsed_resume resume_embedding (some pe) job
        parsed_job resume_similarity prompt_similarity =
      base_score env filter_params parsed_resume parsed_job (some pe) job
          resume_similarity prompt_similarity *
        (((1 - (1 - calculate_similarity env pe te) *
          filter_params.role_relevance_boost_factor : ℚ)) : ℝ) := by
  rw [post_heap_score, hte, role_relevance_below_above env filter_params pe te
    resume_embedding h1 h2 h3]

/-- C4 witness: the amended theorem applied to the similarities of
`role_relevance_penalty_counterexample`. -/
theorem post_heap_score_penalty_factor_witness :
    job0ranked.title_embedding = some [1] ∧
    calculate_similarity env4 [2] [1] < ({} : FilterParams).role_relevance_threshold ∧
    ¬ calculate_similarity env4 [1] [1] < ({} : FilterParams).role_relevance_threshold ∧
    post_heap_score env4 {} ⟨∅, "not specified"⟩ [1] (some [2]) job0ranked
        ⟨∅, "not specified"⟩ 1 (1/5) =
      base_score env4 {} ⟨∅, "not specified"⟩ ⟨∅, "not specified"⟩ (some [2]) job0ranked
          1 (1/5) *
        (((1 - (1 - calculate_similarity env4 [2] [1]) *
          ({} : FilterParams).role_relevance_boost_factor : ℚ)) : ℝ) :=
  ⟨rfl, by rw [env4_title_prompt_sim]; norm_num,
    by rw [env4_title_resume_sim]; norm_num,
    post_heap_score_penalty_factor env4 {} ⟨∅, "not specified"⟩ ⟨∅, "not specified"⟩
      [1] [2] [1] job0ranked 1 (1/5) rfl
      (by rw [env4_title_prompt_sim]; norm_num)
      (by rw [env4_title_resume_sim]; norm_num)
      (by rw [env4_title_prompt_sim]; norm_num)⟩

theorem env5_sim : calculate_similarity env5 [1] [1] = 2/5 := by
  rw [calculate_similarity, if_neg (by simp)]
  rfl

/-- C5: the `min_overall_score` filter is dead code.  With
`min_overall_score = 7/10` and every cosine similarity 2/5, the job's
post-heap final score is 63/100 < 7/10, yet `rank_and_filter_jobs`
still returns the job: the `continue` guarded by the check sits at the
end of the loop body, after the heap was already updated.  The first
conjunct ties the `post_heap_score` arguments to the very signals the
live loop computes for this job. -/
theorem min_overall_score_filter_ineffective :
    job_signals env5 (some [1]) [1] job0 = (job0ranked, ⟨∅, "not specified"⟩, 2/5, 2/5) ∧
    rank_and_filter_jobs env5 [job0] "resume" "prompt" params5 = .ok [job0ranked] ∧
    post_heap_score env5 params5 ⟨∅, "not specified"⟩ [1] (some [1]) job0ranked
        ⟨∅, "not specified"⟩ (2/5) (2/5) < ((params5.min_overall_score : ℚ) : ℝ) := by
  refine ⟨?_, ?_, ?_⟩
  · norm_num [job_signals, env5, envBase, job0, job0ranked, calculate_similarity]
  · have hpj : process_job env5 params5 ⟨∅, "not specified"⟩ [1] (some [1]) [] job0 =
        .ok [((19/50 : ℚ), js5)] := by
      norm_num [process_job, job_signals, env5, envBase, job0, job0ranked, js5, params5,
        calculate_similarity, overall_score, skill_overlap_live, exp_match_live,
        heappush, siftdown, siftdown_aux]
      try decide
    have h1 : List.foldlM (process_job env5 params5 ⟨∅, "not specified"⟩ [1] (some [1])) []
        [job0] = .ok [((19/50 : ℚ), js5)] := by
      rw [List.foldlM_cons, hpj]
      rfl
    have h2 : heap_to_list [((19/50 : ℚ), js5)] = .ok [(js5, (19/50 : ℚ))] := by
      norm_num [heap_to_list, heap_to_list_aux, heappop]
    have hloop : rank_loop env5 params5 ⟨∅, "not specified"⟩ [1] (some [1]) [job0] =
        .ok [(js5, (19/50 : ℚ))] := by
      rw [rank_loop, h1]
      dsimp only
      rw [h2]
      dsimp only
      simp [sort_by_score_desc, insert_desc]
    have h3 : rank_and_filter_jobs_scored env5 [job0] "resume" "prompt" params5 =
        .ok [(js5, (19/50 : ℚ))] := by
      rw [rank_and_filter_jobs_scored, if_neg (show ¬([job0] = []) by simp)]
      exact hloop
    rw [rank_and_filter_jobs, h3]
    rfl
  · have hcond : ¬ calculate_similarity env5 [1] [1] < params5.role_relevance_threshold := by
      rw [env5_sim]
      norm_num [params5]
    have hrr : role_relevance env5 params5 (some [1]) [1] (some [1]) = 1 := by
      rw [role_relevance.eq_def]
      dsimp only
      rw [if_neg hcond, if_neg hcond]
    have hEL : EXPERIENCE_LEVELS "not specified" = -1 := by decide
    have hem : experience_match_score (-1) (-1) = 1 := by
      rw [experience_match_score, if_pos ⟨rfl, rfl⟩]
    rw [post_heap_score, show job0ranked.title_embedding = some [1] from rfl, hrr]
    norm_num [base_score, skill_overlap, env5, envBase, params5, job0ranked, job0,
      get_location_coordinates, env5_sim, hEL, hem]
